import Mathlib

/-!
Verification development for the leaf error-context propagation and
handler-dispatch engine, checked against its specification.

The repository's own sources (`test/exception_test.cpp`,
`example/print_file.cpp`) are clients of the engine; the engine itself
(episode tracker, context slots, scoped loader, matcher, dispatcher) is
not part of the visible sources, so those components are modelled from
the specification text.  The `print_file` outermost boundary is embedded
directly from `example/print_file.cpp`.
-/

namespace Leaf

/-- The context (exception-info) types exercised by the repository:
`xi_file_name` (name), `xi_errno` (code), `leaf::e_source_location`
(srcLoc), `info` and `extra_info` from the unit test. -/
inductive CtxTy
  | name
  | code
  | srcLoc
  | info
  | extraInfo
deriving DecidableEq, Repr

/-- Values stored in context slots, one constructor per context type. -/
inductive CtxVal
  | vname (s : String)
  | vcode (n : Int)
  | vsrcLoc
  | vinfo (n : Int)
  | vextraInfo (n : Int)
deriving DecidableEq, Repr

/-- Modelled from the spec: "Context Slot<T>: a per-type storage cell, one
logical instance per type T per thread of control.  Attributes: current
value (optional), the Episode ID it was last written under."  One field
per context type; each holds the optional value together with the episode
ID it was written under. -/
structure Slots where
  slName : Option (CtxVal × Nat)
  slCode : Option (CtxVal × Nat)
  slSrcLoc : Option (CtxVal × Nat)
  slInfo : Option (CtxVal × Nat)
  slExtraInfo : Option (CtxVal × Nat)
deriving DecidableEq, Repr

def emptySlots : Slots := ⟨none, none, none, none, none⟩

def getSlot (sl : Slots) : CtxTy → Option (CtxVal × Nat)
  | .name => sl.slName
  | .code => sl.slCode
  | .srcLoc => sl.slSrcLoc
  | .info => sl.slInfo
  | .extraInfo => sl.slExtraInfo

def setSlot (sl : Slots) (ty : CtxTy) (x : Option (CtxVal × Nat)) : Slots :=
  match ty with
  | .name => { sl with slName := x }
  | .code => { sl with slCode := x }
  | .srcLoc => { sl with slSrcLoc := x }
  | .info => { sl with slInfo := x }
  | .extraInfo => { sl with slExtraInfo := x }

/-- Modelled from the spec: per-thread engine state — the Episode Tracker
("a monotonically increasing identifier ... per thread of control",
with an active flag) together with the thread's full set of context
slots. -/
structure EngineState where
  nextId : Nat
  currentId : Nat
  active : Bool
  slots : Slots
deriving DecidableEq, Repr

/-- The engine state of a fresh thread of control: no episode yet, empty
slots. -/
def initState : EngineState := ⟨1, 0, false, emptySlots⟩

/-- Modelled from the spec: "`begin_episode() -> EpisodeID` allocates a new
strictly-increasing ID for the current thread of control and marks it
active"; "monotonic counter, not reclaimed". -/
def beginEpisode (s : EngineState) : EngineState :=
  { s with nextId := s.nextId + 1, currentId := s.nextId, active := true }

/-- Modelled from the spec: "`end_episode(id)` marks the episode inactive"
(slots tagged with it become eligible for future overwrite but are not
actively cleared). -/
def endEpisode (s : EngineState) : EngineState :=
  { s with active := false }

/-- Modelled from the spec: "`current_episode()` returns the active one
(creating one lazily if none is active)". -/
def ensureEpisode (s : EngineState) : EngineState :=
  if s.active then s else beginEpisode s

/-- Modelled from the spec: `Context Slot<T>::set(value, episode_id)`
"overwrites unconditionally"; a commit tags the value with the episode it
was written under. -/
def setTagged (ty : CtxTy) (v : CtxVal) (tag : Nat) (s : EngineState) : EngineState :=
  { s with slots := setSlot s.slots ty (some (v, tag)) }

/-- Committing a value for `ty` under the currently active episode. -/
def commit (ty : CtxTy) (v : CtxVal) (s : EngineState) : EngineState :=
  setTagged ty v s.currentId s

/-- Modelled from the spec: "`get<T>() -> optional<T>` returns the value if
its stored episode ID equals `current_episode()`, else empty"; this is the
only way the Matcher reads slots, so "a slot's value is only considered
valid for matching if its stored Episode ID equals the Episode ID
currently being dispatched". -/
def slotGet (s : EngineState) (ty : CtxTy) : Option CtxVal :=
  match getSlot s.slots ty with
  | some (v, e) => if e = s.currentId then some v else none
  | none => none

/-- Whether the slot for `ty` already holds a value committed under the
currently active episode (used by the Scoped Loader's commit-on-demand
check). -/
def committed (s : EngineState) (ty : CtxTy) : Bool :=
  match getSlot s.slots ty with
  | some (_, e) => e = s.currentId
  | none => false

/-- A staged payload: an eager value or a lazily-evaluated producer
(`leaf::preload(&leaf::get_errno)` style). -/
inductive StagedSource
  | eager (v : CtxVal)
  | lazyProd (f : Unit → CtxVal)

def evalStaged : StagedSource → CtxVal
  | .eager v => v
  | .lazyProd f => f ()

/-- Number of producer evaluations performed when this staged payload is
committed (instrumentation for the "producer is never evaluated on the
success path" property). -/
def evalCost : StagedSource → Nat
  | .eager _ => 0
  | .lazyProd _ => 1

/-- A Scoped Loader entry: the target slot type and the staged value or
producer. -/
structure StageEntry where
  ty : CtxTy
  src : StagedSource

/-- Engine state instrumented with a count of lazy-producer evaluations. -/
structure RunState where
  es : EngineState
  evals : Nat

/-- Modelled from the spec: the Scoped Loader's destructor.  "On
destruction ..., if propagation is currently active through this scope and
the slot for T has not already been committed under the current episode,
evaluates the producer (if lazy) and calls `Context Slot<T>::set`.  If
propagation is not active (the scope exited normally), no commit happens
and the previous slot value for T is restored."  `prev` is the slot
content saved when the scope was entered. -/
def scopeExit (e : StageEntry) (prev : Option (CtxVal × Nat)) (propagating : Bool)
    (rs : RunState) : RunState :=
  if propagating then
    if committed rs.es e.ty then rs
    else
      { es := setTagged e.ty (evalStaged e.src) rs.es.currentId rs.es,
        evals := rs.evals + evalCost e.src }
  else
    { rs with es := { rs.es with slots := setSlot rs.es.slots e.ty prev } }

/-- A nest of scoped stagings, listed outermost first: each entry saves the
previous slot content on entry, the body (the rest of the list) runs, and
the destructors then run in LIFO order ("Scoped Loader commit order
follows strict LIFO unwind order matching call-stack nesting").
`propagating` tells whether a failure is unwinding through the nest. -/
def runNested (entries : List StageEntry) (propagating : Bool) (rs : RunState) : RunState :=
  match entries with
  | [] => rs
  | e :: rest =>
      scopeExit e (getSlot rs.es.slots e.ty) propagating (runNested rest propagating rs)

/-- A single context requirement of a handler descriptor: a required type
with an optional value predicate (`leaf::match<info,42>` carries a
predicate; a bare argument type has the trivial predicate). -/
structure Req where
  ty : CtxTy
  pred : CtxVal → Bool

/-- Modelled from the spec: "Handler Descriptor: ordered tuple of
(failure-kind filter — 'any' or a specific kind/ancestor, set of required
context types with optional per-type value predicates, callback)." -/
structure Descriptor (K : Type) (R : Type) where
  kindFilter : Option K
  required : List Req
  handler : List CtxVal → R

/-- Kind-filter compatibility: "'any' or a specific kind/ancestor"; `isA`
is the client-defined ancestry relation on failure kinds. -/
def kindOk {K : Type} (isA : K → K → Bool) (k : K) : Option K → Bool
  | none => true
  | some k' => isA k k'

/-- Modelled from the spec: the Matcher.  "For a descriptor with required
types {T1..Tn} and optional predicates, calls `Context Slot<Ti>::get()` for
each; if any returns empty, the whole match fails ...  If all are present,
predicates (if any) are evaluated against the extracted values; if a
predicate fails, the match fails.  On full success, returns the bound
values in declaration order." -/
def tryMatch (s : EngineState) : List Req → Option (List CtxVal)
  | [] => some []
  | r :: rest =>
      match slotGet s r.ty with
      | none => none
      | some v =>
          if r.pred v then (tryMatch s rest).map (fun vs => v :: vs) else none

/-- Whether a descriptor is fully satisfied by the current state and
failure kind: its kind filter matches and its required context matches. -/
def descrMatches {K R : Type} (isA : K → K → Bool) (s : EngineState) (k : K)
    (d : Descriptor K R) : Bool :=
  kindOk isA k d.kindFilter && (tryMatch s d.required).isSome

/-- Modelled from the spec: the Dispatcher's descriptor scan.  "Iterates
`descriptors` in order ... filtered additionally by failure-kind
compatibility (a descriptor whose kind filter does not match the carrier's
kind/ancestry is skipped without consulting context); the first descriptor
that both kind-matches and context-matches has its callback invoked with
the bound values." -/
def findHandler {K R : Type} (isA : K → K → Bool) (s : EngineState) (k : K) :
    List (Descriptor K R) → Option R
  | [] => none
  | d :: rest =>
      if kindOk isA k d.kindFilter then
        match tryMatch s d.required with
        | some vs => some (d.handler vs)
        | none => findHandler isA s k rest
      else
        findHandler isA s k rest

/-- Modelled from the spec: the Dispatcher's failure path.  The first
fully-satisfied descriptor's callback result becomes the dispatch result
and the episode is ended; "if no descriptor matches, the original failure
is re-raised to the caller of `dispatch`, episode remains active". -/
def dispatchFail {K R : Type} (isA : K → K → Bool) (ds : List (Descriptor K R))
    (k : K) (s : EngineState) : Except K R × EngineState :=
  match findHandler isA s k ds with
  | some r => (Except.ok r, endEpisode s)
  | none => (Except.error k, s)

/-- Modelled from the spec: `dispatch(protected_call, descriptors[])`.
"Invokes `protected_call`; if it completes without failure, returns its
result ...; if it raises a Failure Carrier", the descriptor scan runs on
the state the protected call left behind. -/
def tryCatch {K R : Type} (isA : K → K → Bool)
    (call : EngineState → Except K R × EngineState)
    (ds : List (Descriptor K R)) (s : EngineState) : Except K R × EngineState :=
  match call s with
  | (Except.ok r, s') => (Except.ok r, s')
  | (Except.error k, s') => dispatchFail isA ds k s'

/-- Bookkeeping operations a thread of control performs on the engine
between two dispatches. -/
inductive EngineOp
  | beginEp
  | endEp
  | commitOp (ty : CtxTy) (v : CtxVal)
deriving DecidableEq, Repr

def applyOp (op : EngineOp) (s : EngineState) : EngineState :=
  match op with
  | .beginEp => beginEpisode s
  | .endEp => endEpisode s
  | .commitOp ty v => commit ty v s

def applyOps : List EngineOp → EngineState → EngineState
  | [], s => s
  | op :: ops, s => applyOps ops (applyOp op s)

/-- Whether an operation writes the slot for `ty`. -/
def touchesSlot (op : EngineOp) (ty : CtxTy) : Bool :=
  match op with
  | .commitOp ty' _ => ty' = ty
  | _ => false

/-- The episode IDs allocated (by `beginEpisode`) while running a sequence
of operations, in allocation order. -/
def allocIds : List EngineOp → EngineState → List Nat
  | [], _ => []
  | .beginEp :: ops, s => s.nextId :: allocIds ops (beginEpisode s)
  | op :: ops, s => allocIds ops (applyOp op s)

/-- A catch-all descriptor: no kind filter, zero required context types,
no predicates (the trailing `[]{ return 43; }` handler of the test, or
`info.match<>` of the example). -/
def catchAll {K R : Type} (r : R) : Descriptor K R := ⟨none, [], fun _ => r⟩

/-! ### Embedding of `test/exception_test.cpp`

The failure kinds thrown by the unit test: `my_exception` and the default
exception object used when `LEAF_THROW` / `leaf::exception` is given no
exception argument. -/

inductive TestKind
  | myException
  | leafDefault
deriving DecidableEq, Repr

/-- Ancestry on test kinds: neither is an ancestor of the other. -/
def testIsA (a b : TestKind) : Bool := a == b

/-- `leaf::match<info,42>`: requires `info` present with value 42. -/
def reqInfo42 : Req := ⟨.info, fun v => v == .vinfo 42⟩

/-- A bare `info x` argument: requires `info` present, any value. -/
def reqInfoVal : Req := ⟨.info, fun _ => true⟩

/-- A bare `leaf::e_source_location` argument: requires it present. -/
def reqSrcLoc : Req := ⟨.srcLoc, fun _ => true⟩

def testD1 : Descriptor TestKind Int := ⟨some .myException, [reqInfo42, reqSrcLoc], fun _ => 20⟩

def testD2 : Descriptor TestKind Int := ⟨some .myException, [reqInfo42, reqInfoVal], fun _ => 21⟩

def testD3 : Descriptor TestKind Int := ⟨some .myException, [reqSrcLoc], fun _ => 22⟩

def testD4 : Descriptor TestKind Int := ⟨some .myException, [], fun _ => 23⟩

def testD5 : Descriptor TestKind Int := ⟨none, [reqInfo42, reqSrcLoc], fun _ => 40⟩

def testD6 : Descriptor TestKind Int := ⟨none, [reqInfo42, reqInfoVal], fun _ => 41⟩

def testD7 : Descriptor TestKind Int := ⟨none, [reqSrcLoc], fun _ => 42⟩

/-- The eight handlers of `test`, in declaration order (the last is the
catch-all returning 43). -/
def testDescriptors : List (Descriptor TestKind Int) :=
  [testD1, testD2, testD3, testD4, testD5, testD6, testD7, catchAll 43]

/-- Raising a failure as the test does: a fresh episode is begun, `info{42}`
is attached when the raise site passes it, and `e_source_location` is
attached exactly when the raise goes through the `LEAF_THROW` /
`LEAF_EXCEPTION` macros. -/
def raiseTest (withSrcLoc withInfo : Bool) (s : EngineState) : EngineState :=
  let s1 := beginEpisode s
  let s2 := if withInfo then commit .info (.vinfo 42) s1 else s1
  if withSrcLoc then commit .srcLoc .vsrcLoc s2 else s2

/-- One run of the test's `try_catch` over a failure of kind `k` raised
with the given attachments. -/
def runTest (k : TestKind) (withSrcLoc withInfo : Bool) : Except TestKind Int × EngineState :=
  dispatchFail testIsA testDescriptors k (raiseTest withSrcLoc withInfo initState)

/-! ### Basic lemmas about slots and engine operations -/

theorem getSlot_setSlot (sl : Slots) (ty ty' : CtxTy) (x : Option (CtxVal × Nat)) :
    getSlot (setSlot sl ty x) ty' = if ty = ty' then x else getSlot sl ty' := by
  cases ty <;> cases ty' <;> simp [getSlot, setSlot]

theorem setSlot_getSlot (sl : Slots) (ty : CtxTy) :
    setSlot sl ty (getSlot sl ty) = sl := by
  cases ty <;> rfl

theorem nextId_applyOp (op : EngineOp) (s : EngineState) :
    s.nextId ≤ (applyOp op s).nextId := by
  cases op <;> simp [applyOp, beginEpisode, endEpisode, commit, setTagged]

theorem nextId_applyOps (ops : List EngineOp) (s : EngineState) :
    s.nextId ≤ (applyOps ops s).nextId := by
  induction ops generalizing s with
  | nil => exact Nat.le_refl _
  | cons op ops ih => exact Nat.le_trans (nextId_applyOp op s) (ih (applyOp op s))

theorem getSlot_applyOp (op : EngineOp) (s : EngineState) (ty : CtxTy)
    (h : touchesSlot op ty = false) :
    getSlot (applyOp op s).slots ty = getSlot s.slots ty := by
  cases op with
  | beginEp => rfl
  | endEp => rfl
  | commitOp ty' v =>
      simp only [touchesSlot, decide_eq_false_iff_not] at h
      simp [applyOp, commit, setTagged, getSlot_setSlot, h]

theorem getSlot_applyOps (ops : List EngineOp) (s : EngineState) (ty : CtxTy)
    (h : ∀ op ∈ ops, touchesSlot op ty = false) :
    getSlot (applyOps ops s).slots ty = getSlot s.slots ty := by
  induction ops generalizing s with
  | nil => rfl
  | cons op ops ih =>
      rw [applyOps, ih (applyOp op s) (fun o ho => h o (List.mem_cons_of_mem _ ho)),
        getSlot_applyOp op s ty (h op (List.mem_cons_self _ _))]

theorem allocIds_lb (ops : List EngineOp) (s : EngineState) :
    ∀ x ∈ allocIds ops s, s.nextId ≤ x := by
  induction ops generalizing s with
  | nil => intro x hx; simp [allocIds] at hx
  | cons op ops ih =>
      intro x hx
      cases op with
      | beginEp =>
          rw [allocIds] at hx
          rcases List.mem_cons.mp hx with h | h
          · omega
          · have := ih (beginEpisode s) x h
            simp [beginEpisode] at this
            omega
      | endEp =>
          have := ih (endEpisode s) x hx
          simpa [endEpisode] using this
      | commitOp ty v =>
          have := ih (commit ty v s) x hx
          simpa [commit, setTagged] using this

theorem allocIds_pairwise (ops : List EngineOp) (s : EngineState) :
    (allocIds ops s).Pairwise (· < ·) := by
  induction ops generalizing s with
  | nil => exact List.Pairwise.nil
  | cons op ops ih =>
      cases op with
      | beginEp =>
          rw [allocIds]
          refine List.Pairwise.cons ?_ (ih (beginEpisode s))
          intro x hx
          have := allocIds_lb ops (beginEpisode s) x hx
          simp [beginEpisode] at this
          omega
      | endEp => exact ih (endEpisode s)
      | commitOp ty v => exact ih (commit ty v s)

theorem findHandler_append_none {K R : Type} (isA : K → K → Bool) (s : EngineState)
    (k : K) (ds1 ds : List (Descriptor K R))
    (h : ∀ d' ∈ ds1, descrMatches isA s k d' = false) :
    findHandler isA s k (ds1 ++ ds) = findHandler isA s k ds := by
  induction ds1 with
  | nil => rfl
  | cons d ds1 ih =>
      have hd := h d (List.mem_cons_self _ _)
      have hrest : ∀ d' ∈ ds1, descrMatches isA s k d' = false :=
        fun d' hd' => h d' (List.mem_cons_of_mem _ hd')
      rw [List.cons_append]
      cases hk : kindOk isA k d.kindFilter with
      | false =>
          simp only [findHandler, hk, Bool.false_eq_true, if_false]
          exact ih hrest
      | true =>
          have hm : (tryMatch s d.required).isSome = false := by
            simpa [descrMatches, hk] using hd
          cases htm : tryMatch s d.required with
          | some vs => rw [htm] at hm; simp at hm
          | none =>
              simp only [findHandler, hk, if_true, htm]
              exact ih hrest

theorem findHandler_all_unsat_catchAll {K R : Type} (isA : K → K → Bool) (s : EngineState)
    (k : K) (r : R) (ds : List (Descriptor K R))
    (hnoCtx : ∀ ty, slotGet s ty = none)
    (hds : ∀ d ∈ ds, d.required.isEmpty = false ∨ kindOk isA k d.kindFilter = false) :
    findHandler isA s k (ds ++ [catchAll r]) = some r := by
  induction ds with
  | nil => simp [findHandler, catchAll, kindOk, tryMatch]
  | cons d ds ih =>
      have hrest : ∀ d' ∈ ds, d'.required.isEmpty = false ∨ kindOk isA k d'.kindFilter = false :=
        fun d' hd' => hds d' (List.mem_cons_of_mem _ hd')
      rcases hds d (List.mem_cons_self _ _) with hreq | hk
      · cases hkind : kindOk isA k d.kindFilter with
        | false =>
            simp only [List.cons_append, findHandler, hkind, Bool.false_eq_true, if_false]
            exact ih hrest
        | true =>
            cases hr : d.required with
            | nil => rw [hr] at hreq; simp [List.isEmpty] at hreq
            | cons r0 rs =>
                have htm : tryMatch s (r0 :: rs) = none := by
                  simp [tryMatch, hnoCtx r0.ty]
                simp only [List.cons_append, findHandler, hkind, if_true, hr, htm]
                exact ih hrest
      · simp only [List.cons_append, findHandler, hk, Bool.false_eq_true, if_false]
        exact ih hrest

theorem findHandler_catchAll_isSome {K R : Type} (isA : K → K → Bool) (s : EngineState)
    (k : K) (r : R) (ds : List (Descriptor K R)) :
    (findHandler isA s k (ds ++ [catchAll r])).isSome = true := by
  induction ds with
  | nil => simp [findHandler, catchAll, kindOk, tryMatch]
  | cons d ds ih =>
      cases hk : kindOk isA k d.kindFilter with
      | false =>
          simp only [List.cons_append, findHandler, hk, Bool.false_eq_true, if_false]
          exact ih
      | true =>
          cases htm : tryMatch s d.required with
          | none =>
              simp only [List.cons_append, findHandler, hk, if_true, htm]
              exact ih
          | some vs =>
              simp only [List.cons_append, findHandler, hk, if_true, htm, Option.isSome_some]

/-- C1: within a dispatch over an ordered list of handler descriptors, the
descriptors are tried strictly in declaration order: if every descriptor
before `d` is unsatisfied (by kind filter or by required context) and `d`
is fully satisfied, then `d` is the descriptor invoked — its callback runs
on the bound values and yields the dispatch result — no matter which
descriptors (however specific, also satisfied) follow it. -/
theorem first_satisfied_descriptor_wins {K R : Type} (isA : K → K → Bool)
    (s : EngineState) (k : K) (ds1 ds2 : List (Descriptor K R)) (d : Descriptor K R)
    (h1 : ∀ d' ∈ ds1, descrMatches isA s k d' = false)
    (h2 : descrMatches isA s k d = true) :
    ∃ vs, tryMatch s d.required = some vs ∧
      dispatchFail isA (ds1 ++ d :: ds2) k s = (Except.ok (d.handler vs), endEpisode s) := by
  have hk : kindOk isA k d.kindFilter = true := by
    have := h2; simp [descrMatches, Bool.and_eq_true] at this; exact this.1
  have hm : (tryMatch s d.required).isSome = true := by
    have := h2; simp [descrMatches, Bool.and_eq_true] at this; exact this.2
  obtain ⟨vs, hvs⟩ := Option.isSome_iff_exists.mp hm
  refine ⟨vs, hvs, ?_⟩
  have hfind : findHandler isA s k (ds1 ++ d :: ds2) = some (d.handler vs) := by
    rw [findHandler_append_none isA s k ds1 _ h1]
    simp only [findHandler, hk, if_true, hvs]
  rw [dispatchFail, hfind]

/-- Witness for C1, mirroring `BOOST_TEST_EQ(40, test([]{ LEAF_THROW(info{42}); }))`:
a default-kind failure with `info{42}` and a source location skips the
four `catch_<my_exception>`-filtered descriptors and is handled by the
fifth descriptor (result 40), even though the sixth, seventh and eighth
would also match. -/
theorem first_satisfied_descriptor_wins_witness :
    ∃ vs, tryMatch (raiseTest true true initState) testD5.required = some vs ∧
      dispatchFail testIsA ([testD1, testD2, testD3, testD4] ++ testD5 :: [testD6, testD7, catchAll 43])
        TestKind.leafDefault (raiseTest true true initState)
        = (Except.ok (testD5.handler vs), endEpisode (raiseTest true true initState)) :=
  first_satisfied_descriptor_wins testIsA (raiseTest true true initState) TestKind.leafDefault
    [testD1, testD2, testD3, testD4] [testD6, testD7, catchAll 43] testD5
    (by decide) (by decide)

/-- C7: a descriptor whose kind filter does not match the carrier's kind
(per the ancestry relation) is skipped without its required context being
consulted — even when that context is fully satisfied — and dispatch
proceeds to the next descriptor; in particular a later kind-unfiltered
descriptor whose context matches handles the failure. -/
theorem kind_mismatch_skips_descriptor {K R : Type} (isA : K → K → Bool)
    (s : EngineState) (k : K) (d d2 : Descriptor K R) (rest ds : List (Descriptor K R))
    (vs : List CtxVal)
    (hk : kindOk isA k d.kindFilter = false)
    (_hctx : (tryMatch s d.required).isSome = true)
    (hd2 : d2.kindFilter = none)
    (hm : tryMatch s d2.required = some vs) :
    findHandler isA s k (d :: rest) = findHandler isA s k rest
    ∧ findHandler isA s k (d :: d2 :: ds) = some (d2.handler vs) := by
  have hskip : ∀ rest' : List (Descriptor K R),
      findHandler isA s k (d :: rest') = findHandler isA s k rest' := by
    intro rest'
    simp only [findHandler, hk, Bool.false_eq_true, if_false]
  refine ⟨hskip rest, ?_⟩
  rw [hskip (d2 :: ds)]
  simp only [findHandler, hd2, kindOk, if_true, hm]

/-- Witness for C7: the default-kind failure with `info{42}` and a source
location satisfies `testD1`'s context requirements but not its
`catch_<my_exception>` filter, so `testD1` is skipped and the
kind-unfiltered `testD5` handles the failure. -/
theorem kind_mismatch_skips_descriptor_witness :
    findHandler testIsA (raiseTest true true initState) TestKind.leafDefault
        (testD1 :: [testD2, testD3, testD4])
      = findHandler testIsA (raiseTest true true initState) TestKind.leafDefault
        [testD2, testD3, testD4]
    ∧ findHandler testIsA (raiseTest true true initState) TestKind.leafDefault
        (testD1 :: testD5 :: [testD6, testD7, catchAll 43])
      = some (testD5.handler [CtxVal.vinfo 42, CtxVal.vsrcLoc]) :=
  kind_mismatch_skips_descriptor testIsA (raiseTest true true initState) TestKind.leafDefault
    testD1 testD5 [testD2, testD3, testD4] [testD6, testD7, catchAll 43]
    [CtxVal.vinfo 42, CtxVal.vsrcLoc] (by decide) (by decide) (by decide) (by decide)

/-- C8: a descriptor with no kind filter, zero required context types and
no predicates is satisfied by any failure that reaches it; a dispatch
whose descriptor list ends with such a catch-all always resolves (never
re-raises); and when no context is staged for the current episode and
every earlier descriptor either requires some context type or fails the
kind filter, dispatch resolves to that catch-all. -/
theorem catch_all_never_reraises {K R : Type} (isA : K → K → Bool) (s : EngineState)
    (k : K) (r : R) (ds ds' : List (Descriptor K R))
    (hnoCtx : ∀ ty, slotGet s ty = none)
    (hds : ∀ d ∈ ds, d.required.isEmpty = false ∨ kindOk isA k d.kindFilter = false) :
    descrMatches isA s k (catchAll r : Descriptor K R) = true
    ∧ (findHandler isA s k (ds' ++ [catchAll r])).isSome = true
    ∧ dispatchFail isA (ds ++ [catchAll r]) k s = (Except.ok r, endEpisode s) := by
  refine ⟨by simp [descrMatches, catchAll, kindOk, tryMatch], findHandler_catchAll_isSome isA s k r ds', ?_⟩
  rw [dispatchFail, findHandler_all_unsat_catchAll isA s k r ds hnoCtx hds]

/-- Witness for C8, mirroring `BOOST_TEST_EQ(43, test([]{ throw leaf::exception(); }))`:
with nothing staged, the default-kind failure falls through the seven
earlier descriptors to the trailing catch-all, which returns 43. -/
theorem catch_all_never_reraises_witness :
    descrMatches testIsA (beginEpisode initState) TestKind.leafDefault
        (catchAll 43 : Descriptor TestKind Int) = true
    ∧ (findHandler testIsA (beginEpisode initState) TestKind.leafDefault
        ([testD1, testD2, testD3] ++ [catchAll 43])).isSome = true
    ∧ dispatchFail testIsA
        ([testD1, testD2, testD3, testD4, testD5, testD6, testD7] ++ [catchAll 43])
        TestKind.leafDefault (beginEpisode initState)
      = (Except.ok 43, endEpisode (beginEpisode initState)) :=
  catch_all_never_reraises testIsA (beginEpisode initState) TestKind.leafDefault 43
    [testD1, testD2, testD3, testD4, testD5, testD6, testD7] [testD1, testD2, testD3]
    (fun ty => by cases ty <;> rfl) (by decide)

/-- C2: episode IDs allocated within one thread of control are strictly
increasing (hence never reused); a slot value is eligible for matching
only when its stored episode ID equals the current one; and for two
consecutive failures, a value committed under the earlier episode — still
stored, never overwritten — is invisible once the later episode has
begun. -/
theorem episode_ids_monotone_stale_invisible (s s' t : EngineState) (ty ty' : CtxTy)
    (v val : CtxVal) (tag : Nat) (ops ops' : List EngineOp)
    (hwf : s.currentId < s.nextId)
    (hops : ∀ op ∈ ops, touchesSlot op ty = false)
    (hg1 : getSlot s'.slots ty' = some (val, tag))
    (hg2 : tag ≠ s'.currentId) :
    (allocIds ops' t).Pairwise (· < ·)
    ∧ slotGet s' ty' = none
    ∧ s.currentId < (beginEpisode (applyOps ops (commit ty v s))).currentId
    ∧ getSlot (beginEpisode (applyOps ops (commit ty v s))).slots ty = some (v, s.currentId)
    ∧ slotGet (beginEpisode (applyOps ops (commit ty v s))) ty = none := by
  have hc : getSlot (commit ty v s).slots ty = some (v, s.currentId) := by
    simp [commit, setTagged, getSlot_setSlot]
  have hst : getSlot (applyOps ops (commit ty v s)).slots ty = some (v, s.currentId) := by
    rw [getSlot_applyOps ops _ ty hops, hc]
  have hnext : s.nextId ≤ (applyOps ops (commit ty v s)).nextId := by
    have h := nextId_applyOps ops (commit ty v s)
    simpa [commit, setTagged] using h
  have hcur : (beginEpisode (applyOps ops (commit ty v s))).currentId
      = (applyOps ops (commit ty v s)).nextId := rfl
  have hlt : s.currentId < (beginEpisode (applyOps ops (commit ty v s))).currentId := by
    rw [hcur]; omega
  refine ⟨allocIds_pairwise ops' t, ?_, hlt, hst, ?_⟩
  · simp [slotGet, hg1, hg2]
  · have hb : getSlot (beginEpisode (applyOps ops (commit ty v s))).slots ty
        = some (v, s.currentId) := hst
    have hne : s.currentId ≠ (beginEpisode (applyOps ops (commit ty v s))).currentId := by
      omega
    simp [slotGet, hb, hne]

/-- Witness for C2: `info{7}` committed under the first episode is still
stored but invisible after a second episode begins, and the allocated IDs
of two consecutive `begin_episode` calls are strictly increasing. -/
theorem episode_ids_monotone_stale_invisible_witness :
    (allocIds [EngineOp.beginEp, EngineOp.endEp, EngineOp.beginEp] initState).Pairwise (· < ·)
    ∧ slotGet (beginEpisode (commit .info (.vinfo 7) (beginEpisode initState))) CtxTy.info = none
    ∧ (beginEpisode (beginEpisode initState)).currentId
      < (beginEpisode (applyOps [EngineOp.endEp]
          (commit .info (.vinfo 7) (beginEpisode (beginEpisode initState))))).currentId
    ∧ getSlot (beginEpisode (applyOps [EngineOp.endEp]
          (commit .info (.vinfo 7) (beginEpisode (beginEpisode initState))))).slots CtxTy.info
      = some (.vinfo 7, (beginEpisode (beginEpisode initState)).currentId)
    ∧ slotGet (beginEpisode (applyOps [EngineOp.endEp]
          (commit .info (.vinfo 7) (beginEpisode (beginEpisode initState))))) CtxTy.info
      = none :=
  episode_ids_monotone_stale_invisible (beginEpisode (beginEpisode initState))
    (beginEpisode (commit .info (.vinfo 7) (beginEpisode initState))) initState
    CtxTy.info CtxTy.info (.vinfo 7) (.vinfo 7) 1 [EngineOp.endEp]
    [EngineOp.beginEp, EngineOp.endEp, EngineOp.beginEp]
    (by decide) (by decide) (by decide) (by decide)

/-- C3: when no descriptor of an inner dispatch matches, the original
failure carrier is re-raised unchanged to the dispatch's caller, the
engine state — in particular the current episode ID and the active flag —
is unchanged, and an outer dispatch can still match the failure through
context that was committed (inside the inner scope) under the still-active
episode. -/
theorem unmatched_dispatch_reraises {K R : Type} (isA : K → K → Bool)
    (call : EngineState → Except K R × EngineState)
    (dsI : List (Descriptor K R)) (dOut : Descriptor K R)
    (k : K) (s s' : EngineState) (vs : List CtxVal)
    (hcall : call s = (Except.error k, s'))
    (hnone : findHandler isA s' k dsI = none)
    (hkOut : kindOk isA k dOut.kindFilter = true)
    (hmOut : tryMatch s' dOut.required = some vs) :
    tryCatch isA call dsI s = (Except.error k, s')
    ∧ (tryCatch isA call dsI s).2.currentId = s'.currentId
    ∧ (tryCatch isA call dsI s).2.active = s'.active
    ∧ dispatchFail isA [dOut] k (tryCatch isA call dsI s).2
        = (Except.ok (dOut.handler vs), endEpisode s') := by
  have h1 : tryCatch isA call dsI s = (Except.error k, s') := by
    simp only [tryCatch, hcall, dispatchFail, hnone]
  refine ⟨h1, by rw [h1], by rw [h1], ?_⟩
  rw [h1]
  simp only [dispatchFail, findHandler, hkOut, if_true, hmOut]

/-- Witness for C3, mirroring the nested-`try_catch` block of the unit
test: an inner dispatch with no descriptors re-raises a `my_exception`
carrier unchanged, the episode ID is the one the raise established, and
the outer dispatch resolves it through the `info{42}` committed inside the
inner scope (result 21). -/
theorem unmatched_dispatch_reraises_witness :
    tryCatch testIsA
        (fun _ => (Except.error TestKind.myException,
          commit .info (.vinfo 42) (beginEpisode initState)))
        ([] : List (Descriptor TestKind Int)) initState
      = (Except.error TestKind.myException, commit .info (.vinfo 42) (beginEpisode initState))
    ∧ (tryCatch testIsA
        (fun _ => (Except.error TestKind.myException,
          commit .info (.vinfo 42) (beginEpisode initState)))
        ([] : List (Descriptor TestKind Int)) initState).2.currentId
      = (commit .info (.vinfo 42) (beginEpisode initState)).currentId
    ∧ (tryCatch testIsA
        (fun _ => (Except.error TestKind.myException,
          commit .info (.vinfo 42) (beginEpisode initState)))
        ([] : List (Descriptor TestKind Int)) initState).2.active
      = (commit .info (.vinfo 42) (beginEpisode initState)).active
    ∧ dispatchFail testIsA [testD2] TestKind.myException
        (tryCatch testIsA
          (fun _ => (Except.error TestKind.myException,
            commit .info (.vinfo 42) (beginEpisode initState)))
          ([] : List (Descriptor TestKind Int)) initState).2
      = (Except.ok (testD2.handler [CtxVal.vinfo 42, CtxVal.vinfo 42]),
          endEpisode (commit .info (.vinfo 42) (beginEpisode initState))) :=
  unmatched_dispatch_reraises testIsA
    (fun _ => (Except.error TestKind.myException,
      commit .info (.vinfo 42) (beginEpisode initState)))
    [] testD2 TestKind.myException initState
    (commit .info (.vinfo 42) (beginEpisode initState))
    [CtxVal.vinfo 42, CtxVal.vinfo 42]
    rfl rfl (by decide) (by decide)

/-! ### Embedding of `example/print_file.cpp` -/

/-- The failure-kind hierarchy declared in `example/print_file.cpp`
(`print_file_error` at the root, `command_line_error` / `io_error`
branches), plus a kind for exceptions outside the hierarchy (caught only
by `catch(...)`). -/
inductive PFKind
  | printFileError
  | commandLineError
  | badCommandLine
  | ioError
  | fileError
  | fopenError
  | freadError
  | ftellError
  | fseekError
  | otherError
deriving DecidableEq, Repr

/-- Each kind together with its ancestors, from the virtual-inheritance
hierarchy of `print_file.cpp`. -/
def pfAncestors : PFKind → List PFKind
  | .printFileError => [.printFileError]
  | .commandLineError => [.commandLineError, .printFileError]
  | .badCommandLine => [.badCommandLine, .commandLineError, .printFileError]
  | .ioError => [.ioError, .printFileError]
  | .fileError => [.fileError, .ioError, .printFileError]
  | .fopenError => [.fopenError, .fileError, .ioError, .printFileError]
  | .freadError => [.freadError, .fileError, .ioError, .printFileError]
  | .ftellError => [.ftellError, .fileError, .ioError, .printFileError]
  | .fseekError => [.fseekError, .fileError, .ioError, .printFileError]
  | .otherError => [.otherError]

/-- `a` is of kind `b` or derived from it. -/
def pfIsA (a b : PFKind) : Bool := (pfAncestors a).contains b

/-- A bare `xi_file_name` requirement (any value). -/
def reqName : Req := ⟨.name, fun _ => true⟩

/-- A bare `xi_errno` requirement (any value). -/
def reqCode : Req := ⟨.code, fun _ => true⟩

/-- `info.match<xi_file_name,xi_errno>(...)`: requires Name and Code. -/
def exD1 : Descriptor PFKind (Nat × List CtxVal) := ⟨none, [reqName, reqCode], fun vs => (1, vs)⟩

/-- `info.match<xi_file_name>(...)`-style descriptor: requires Name only. -/
def exD2 : Descriptor PFKind (Nat × List CtxVal) := ⟨none, [reqName], fun vs => (2, vs)⟩

/-- `info.match<>(...)`: requires nothing. -/
def exD3 : Descriptor PFKind (Nat × List CtxVal) := ⟨none, [], fun vs => (3, vs)⟩

/-- The engine state after staging `Name="missing.txt"` at file-open and
raising an open-failure with no explicit Code: a fresh episode with only
the Name slot committed under it. -/
def c4State : EngineState := commit .name (.vname "missing.txt") (beginEpisode initState)

/-- C4: with `Name="missing.txt"` staged, an open-failure raised with no
explicit Code, and descriptors ordered [requires{Name,Code},
requires{Name}, requires{}], dispatch resolves to the second descriptor
and invokes its callback with `Name="missing.txt"`. -/
theorem print_file_scenario_second_descriptor :
    dispatchFail pfIsA [exD1, exD2, exD3] PFKind.fopenError c4State
      = (Except.ok (2, [CtxVal.vname "missing.txt"]), endEpisode c4State) := rfl

/-- `ENOENT` on the platform the example targets. -/
def ENOENT : Int := 2

/-- The outermost boundary of `example/print_file.cpp`: the catch chain of
`main` (`bad_command_line` → status 1; `fopen_error` → status 2, message
chosen by `errno`, `leaf::mismatch_error` escaping when the file name or
errno info is unavailable; `io_error` → status 3 with the three-way
`unwrap` match; `catch(...)` → status 6 with the generic message and the
diagnostic dump). `fn` and `errn` are the exception info available to
`main`'s `expected<xi_file_name,xi_errno> info`. -/
def mainBoundary (k : PFKind) (fn : Option String) (errn : Option Int) (dump : String) :
    Except Unit (Nat × String) :=
  if pfIsA k .badCommandLine then
    Except.ok (1, "Bad command line argument")
  else if pfIsA k .fopenError then
    match fn, errn with
    | some f, some e =>
        Except.ok (2, if e = ENOENT then "File not found: " ++ f
          else "Failed to open " ++ f ++ ", errno=" ++ toString e)
    | _, _ => Except.error ()
  else if pfIsA k .ioError then
    Except.ok (3,
      match fn, errn with
      | some f, some e => "Failed to access " ++ f ++ ", errno=" ++ toString e
      | _, some e => "I/O error, errno=" ++ toString e
      | _, none => "I/O error")
  else
    Except.ok (6, "Unknown error, cryptic information follows." ++ dump)

/-- The exit status `main` returns for each failure kind. -/
def statusOf (k : PFKind) : Nat :=
  if pfIsA k .badCommandLine then 1
  else if pfIsA k .fopenError then 2
  else if pfIsA k .ioError then 3
  else 6

/-- C9: for every failure reaching `main`, the boundary returns a status
and message determined by the kind — bad command line 1, file-open 2,
other I/O 3, unknown 6, all distinct — degrades to the generic message
plus the diagnostic dump when no specific handler exists, and does not
fault while reporting (an `fopen_error` raised by this program always
carries both `xi_file_name` and `xi_errno`, per `file_open`). -/
theorem print_file_boundary_statuses (k : PFKind) (fn : Option String) (errn : Option Int)
    (dump : String)
    (hfopen : pfIsA k .fopenError = true → fn.isSome = true ∧ errn.isSome = true) :
    (∃ msg, mainBoundary k fn errn dump = Except.ok (statusOf k, msg))
    ∧ statusOf .badCommandLine = 1 ∧ statusOf .fopenError = 2
    ∧ statusOf .freadError = 3 ∧ statusOf .ftellError = 3 ∧ statusOf .fseekError = 3
    ∧ statusOf .otherError = 6
    ∧ mainBoundary .otherError fn errn dump
        = Except.ok (6, "Unknown error, cryptic information follows." ++ dump) := by
  refine ⟨?_, rfl, rfl, rfl, rfl, rfl, rfl, rfl⟩
  cases k with
  | fopenError =>
      obtain ⟨hf, he⟩ := hfopen rfl
      cases fn with
      | none => simp at hf
      | some f =>
          cases errn with
          | none => simp at he
          | some e => exact ⟨_, rfl⟩
  | printFileError => exact ⟨_, rfl⟩
  | commandLineError => exact ⟨_, rfl⟩
  | badCommandLine => exact ⟨_, rfl⟩
  | ioError => exact ⟨_, rfl⟩
  | fileError => exact ⟨_, rfl⟩
  | freadError => exact ⟨_, rfl⟩
  | ftellError => exact ⟨_, rfl⟩
  | fseekError => exact ⟨_, rfl⟩
  | otherError => exact ⟨_, rfl⟩

/-- Witness for C9: `missing.txt` not found (`errno = ENOENT`) exits with
status 2, and the other statuses and the generic degradation hold as
stated. -/
theorem print_file_boundary_statuses_witness :
    (∃ msg, mainBoundary PFKind.fopenError (some "missing.txt") (some 2) ""
        = Except.ok (statusOf PFKind.fopenError, msg))
    ∧ statusOf .badCommandLine = 1 ∧ statusOf .fopenError = 2
    ∧ statusOf .freadError = 3 ∧ statusOf .ftellError = 3 ∧ statusOf .fseekError = 3
    ∧ statusOf .otherError = 6
    ∧ mainBoundary .otherError (some "missing.txt") (some 2) ""
        = Except.ok (6, "Unknown error, cryptic information follows." ++ "") :=
  print_file_boundary_statuses PFKind.fopenError (some "missing.txt") (some 2) ""
    (fun _ => ⟨rfl, rfl⟩)

/-! ### Scoped Loader properties -/

/-- The value the innermost staging for `ty` would commit (entries listed
outermost first, so the last entry for `ty` is the innermost). -/
def lastStagedVal : List StageEntry → CtxTy → Option CtxVal
  | [], _ => none
  | e :: rest, ty =>
      match lastStagedVal rest ty with
      | some v => some v
      | none => if e.ty = ty then some (evalStaged e.src) else none

theorem scopeExit_currentId (e : StageEntry) (prev : Option (CtxVal × Nat)) (p : Bool)
    (rs : RunState) : (scopeExit e prev p rs).es.currentId = rs.es.currentId := by
  cases p with
  | false => rfl
  | true =>
      simp only [scopeExit, if_true]
      cases h : committed rs.es e.ty <;> simp [setTagged]

theorem runNested_currentId (entries : List StageEntry) (p : Bool) (rs : RunState) :
    (runNested entries p rs).es.currentId = rs.es.currentId := by
  induction entries with
  | nil => rfl
  | cons e rest ih => rw [runNested, scopeExit_currentId, ih]

theorem scopeExit_getSlot_ne (e : StageEntry) (prev : Option (CtxVal × Nat)) (p : Bool)
    (rs : RunState) (ty : CtxTy) (h : e.ty ≠ ty) :
    getSlot (scopeExit e prev p rs).es.slots ty = getSlot rs.es.slots ty := by
  cases p with
  | false => simp [scopeExit, getSlot_setSlot, h]
  | true =>
      simp only [scopeExit, if_true]
      cases hc : committed rs.es e.ty with
      | true => simp
      | false => simp [setTagged, getSlot_setSlot, h]

theorem runNested_true_getSlot (entries : List StageEntry) (rs : RunState) (ty : CtxTy)
    (hnc : committed rs.es ty = false) :
    getSlot (runNested entries true rs).es.slots ty =
      match lastStagedVal entries ty with
      | some v => some (v, rs.es.currentId)
      | none => getSlot rs.es.slots ty := by
  induction entries with
  | nil => rfl
  | cons e rest ih =>
      rw [runNested]
      by_cases he : e.ty = ty
      · subst he
        cases hl : lastStagedVal rest e.ty with
        | some v =>
            have hx : getSlot (runNested rest true rs).es.slots e.ty
                = some (v, rs.es.currentId) := by rw [ih, hl]
            have hcm : committed (runNested rest true rs).es e.ty = true := by
              simp [committed, hx, runNested_currentId]
            have hres : scopeExit e (getSlot rs.es.slots e.ty) true (runNested rest true rs)
                = runNested rest true rs := by
              simp [scopeExit, hcm]
            rw [hres, hx, lastStagedVal, hl]
        | none =>
            have hx : getSlot (runNested rest true rs).es.slots e.ty
                = getSlot rs.es.slots e.ty := by rw [ih, hl]
            have hcm : committed (runNested rest true rs).es e.ty = false := by
              have h1 : committed (runNested rest true rs).es e.ty
                  = committed rs.es e.ty := by
                simp only [committed, hx, runNested_currentId]
              rw [h1, hnc]
            have hres : scopeExit e (getSlot rs.es.slots e.ty) true (runNested rest true rs)
                = { es := setTagged e.ty (evalStaged e.src)
                      (runNested rest true rs).es.currentId (runNested rest true rs).es,
                    evals := (runNested rest true rs).evals + evalCost e.src } := by
              simp [scopeExit, hcm]
            rw [hres]
            simp [setTagged, getSlot_setSlot, runNested_currentId, lastStagedVal, hl]
      · have hstep : getSlot (scopeExit e (getSlot rs.es.slots e.ty) true
            (runNested rest true rs)).es.slots ty
            = getSlot (runNested rest true rs).es.slots ty :=
          scopeExit_getSlot_ne _ _ _ _ _ he
        rw [hstep, ih, lastStagedVal]
        cases hl : lastStagedVal rest ty <;> simp [hl, he]

/-- C5: when a failure is raised while several nested scopes have staged a
value for the same context type, the value visible to a matching handler
for that type after the unwind is the innermost staged value — the slot
holds it, tagged with the current episode, and `slotGet` (what the Matcher
consults) returns it, never an outer value shadowed by it. -/
theorem innermost_staged_value_visible (entries : List StageEntry) (rs : RunState)
    (ty : CtxTy) (v : CtxVal)
    (hnc : committed rs.es ty = false)
    (hlast : lastStagedVal entries ty = some v) :
    slotGet (runNested entries true rs).es ty = some v
    ∧ getSlot (runNested entries true rs).es.slots ty = some (v, rs.es.currentId) := by
  have hg := runNested_true_getSlot entries rs ty hnc
  rw [hlast] at hg
  have hc := runNested_currentId entries true rs
  exact ⟨by simp [slotGet, hg, hc], hg⟩

/-- Witness for C5: nesting `stage<Name>("outer.txt")` around
`stage<Name>("inner.txt")`, a failure unwinding through both sees
`"inner.txt"`. -/
theorem innermost_staged_value_visible_witness :
    slotGet (runNested
        [⟨CtxTy.name, .eager (.vname "outer.txt")⟩, ⟨CtxTy.name, .eager (.vname "inner.txt")⟩]
        true ⟨beginEpisode initState, 0⟩).es CtxTy.name = some (CtxVal.vname "inner.txt")
    ∧ getSlot (runNested
        [⟨CtxTy.name, .eager (.vname "outer.txt")⟩, ⟨CtxTy.name, .eager (.vname "inner.txt")⟩]
        true ⟨beginEpisode initState, 0⟩).es.slots CtxTy.name
      = some (CtxVal.vname "inner.txt", (⟨beginEpisode initState, 0⟩ : RunState).es.currentId) :=
  innermost_staged_value_visible
    [⟨CtxTy.name, .eager (.vname "outer.txt")⟩, ⟨CtxTy.name, .eager (.vname "inner.txt")⟩]
    ⟨beginEpisode initState, 0⟩ CtxTy.name (CtxVal.vname "inner.txt") rfl rfl

/-- C6: when no failure propagates through a nest of stagings, scope exit
performs no slot commit, evaluates no lazy producer (the evaluation count
is unchanged), and restores every prior slot value exactly — the run
state after the nest equals the state before it. -/
theorem normal_exit_restores_state (entries : List StageEntry) (rs : RunState) :
    runNested entries false rs = rs := by
  induction entries with
  | nil => rfl
  | cons e rest ih =>
      rw [runNested, ih]
      simp only [scopeExit, Bool.false_eq_true, if_false]
      rw [setSlot_getSlot]

/-- C10: raising through the `LEAF_THROW` / `LEAF_EXCEPTION` macros
additionally commits `e_source_location`, while plain `leaf::exception`
does not; consequently, over the test's descriptor list, identical
failures resolve to the handler requiring `e_source_location` exactly when
the macros are used (results 20/22/40/42) and to the otherwise-equal
handler without that requirement when they are not (results
21/23/41/43). -/
theorem source_location_selects_handler :
    slotGet (raiseTest true false initState) CtxTy.srcLoc = some CtxVal.vsrcLoc
    ∧ slotGet (raiseTest false false initState) CtxTy.srcLoc = none
    ∧ (runTest .myException true true).1 = Except.ok 20
    ∧ (runTest .myException false true).1 = Except.ok 21
    ∧ (runTest .myException true false).1 = Except.ok 22
    ∧ (runTest .myException false false).1 = Except.ok 23
    ∧ (runTest .leafDefault true true).1 = Except.ok 40
    ∧ (runTest .leafDefault false true).1 = Except.ok 41
    ∧ (runTest .leafDefault true false).1 = Except.ok 42
    ∧ (runTest .leafDefault false false).1 = Except.ok 43 :=
  ⟨rfl, rfl, rfl, rfl, rfl, rfl, rfl, rfl, rfl, rfl⟩

end Leaf
